import Mathlib

/-!
Verification of the Solana multi-DEX arbitrage / copy-trading bot.

This file gives a shallow embedding, in Lean 4, of the parts of the
repository that the specification's claims talk about:

* the constant-product AMM quote and slippage arithmetic of
  `src/infrastructure/dex/pump_swap.rs` (`calculate_buy_base_amount`,
  `calculate_sell_quote_amount`, `min_amount_with_slippage`,
  `max_amount_with_slippage`), with Rust's `u64`/`u128` checked
  arithmetic modelled explicitly on `Nat` with the relevant width bounds;
* the event classifier `TradeInfoFromToken::from_json` of
  `src/application/monitor.rs`, including its log-scanning instruction
  detection and its error exits;
* the position-ledger state machine of `copy_trader_pumpfun`
  (admission, buy outcome, forced sell, periodic sweep) as a transition
  system on an explicit state;
* the per-pair arbitrage check of the `arbitrage_monitor` sweep.

Floating-point prices (`f64` in the source) are modelled as exact
rationals; every claim settled against those definitions only depends on
comparisons and arithmetic that are exact at the concrete values used.
-/

/-! ## Checked machine arithmetic

Rust's `checked_add`/`checked_mul`/`checked_sub`/`checked_div` on a
`w`-bit unsigned integer, with `Nat` carrying the value and the width
bound made explicit. -/

/-- Overflow bound of `u64`. -/
def U64 : Nat := 2 ^ 64

/-- Overflow bound of `u128`. -/
def U128 : Nat := 2 ^ 128

/-- The `TEN_THOUSAND` basis-point constant of `pump_swap.rs`. -/
def TEN_THOUSAND : Nat := 10000

/-- Rust `a.checked_add(b)` at width `w`. -/
def checkedAdd (w a b : Nat) : Option Nat :=
  if a + b < w then some (a + b) else none

/-- Rust `a.checked_mul(b)` at width `w`. -/
def checkedMul (w a b : Nat) : Option Nat :=
  if a * b < w then some (a * b) else none

/-- Rust `a.checked_sub(b)` (fails exactly on underflow). -/
def checkedSub (a b : Nat) : Option Nat :=
  if b ≤ a then some (a - b) else none

/-- Rust `a.checked_div(b)` (fails exactly on a zero divisor). -/
def checkedDiv (a b : Nat) : Option Nat :=
  if b = 0 then none else some (a / b)

/-- Rust's `as u64` narrowing cast out of `u128`. -/
def castU64 (a : Nat) : Nat := a % U64

/-! ## AMM quote arithmetic (`pump_swap.rs`, lines 413-478) -/

/-- Embedding of `calculate_buy_base_amount(quote_amount_in, quote_reserve,
base_reserve)` from `pump_swap.rs`: degenerate guard, `checked_add` on the
quote reserve falling back to `quote_reserve`, `u128` `checked_mul` falling
back to `0`, `checked_div` falling back to `0`, narrowing cast, and
`checked_sub` falling back to `0`. -/
def calculate_buy_base_amount (quote_amount_in quote_reserve base_reserve : Nat) : Nat :=
  if quote_amount_in = 0 ∨ base_reserve = 0 ∨ quote_reserve = 0 then 0
  else
    let quote_reserve_after := (checkedAdd U64 quote_reserve quote_amount_in).getD quote_reserve
    let numerator := (checkedMul U128 quote_reserve base_reserve).getD 0
    let denominator := quote_reserve_after
    if denominator = 0 then 0
    else
      let base_reserve_after := (checkedDiv numerator denominator).getD 0
      (checkedSub base_reserve (castU64 base_reserve_after)).getD 0

/-- Embedding of `calculate_sell_quote_amount(base_amount_in, base_reserve,
quote_reserve)` from `pump_swap.rs`, symmetric to the buy path. -/
def calculate_sell_quote_amount (base_amount_in base_reserve quote_reserve : Nat) : Nat :=
  if base_amount_in = 0 ∨ base_reserve = 0 ∨ quote_reserve = 0 then 0
  else
    let base_reserve_after := (checkedAdd U64 base_reserve base_amount_in).getD base_reserve
    let numerator := (checkedMul U128 quote_reserve base_reserve).getD 0
    let denominator := base_reserve_after
    if denominator = 0 then 0
    else
      let quote_reserve_after := (checkedDiv numerator denominator).getD 0
      (checkedSub quote_reserve (castU64 quote_reserve_after)).getD 0

/-- Embedding of `min_amount_with_slippage(input_amount, slippage_bps)`:
`input_amount * (10000 - slippage) / 10000`, where the inner `checked_sub`
falls back to `TEN_THOUSAND`, the `checked_mul` falls back to
`input_amount`, and the `checked_div` falls back to `input_amount`. -/
def min_amount_with_slippage (input_amount slippage_bps : Nat) : Nat :=
  (checkedDiv
    ((checkedMul U64 input_amount
      ((checkedSub TEN_THOUSAND slippage_bps).getD TEN_THOUSAND)).getD input_amount)
    TEN_THOUSAND).getD input_amount

/-- Embedding of `max_amount_with_slippage(input_amount, slippage_bps)`:
`input_amount * (slippage + 10000) / 10000`, where the `checked_add` on
`slippage_bps` falls back to `TEN_THOUSAND`, the `checked_mul` falls back
to `input_amount`, and the `checked_div` falls back to `input_amount`. -/
def max_amount_with_slippage (input_amount slippage_bps : Nat) : Nat :=
  (checkedDiv
    ((checkedMul U64 input_amount
      ((checkedAdd U64 slippage_bps TEN_THOUSAND).getD TEN_THOUSAND)).getD input_amount)
    TEN_THOUSAND).getD input_amount

/-! ### Closed forms of the quote functions (helper lemmas) -/

theorem u64_mul_lt_u128 {q b : Nat} (hq : q < U64) (hb : b < U64) : q * b < U128 := by
  have h := Nat.mul_lt_mul'' hq hb
  have : U64 * U64 = U128 := by norm_num [U64, U128]
  omega

theorem buy_closed_form (dq q b : Nat) (hq : q < U64) (hb : b < U64) :
    calculate_buy_base_amount dq q b =
      if dq = 0 ∨ b = 0 ∨ q = 0 then 0
      else if q + dq < U64 then b - q * b / (q + dq) else 0 := by
  by_cases h0 : dq = 0 ∨ b = 0 ∨ q = 0
  · simp [calculate_buy_base_amount, h0]
  · push_neg at h0
    obtain ⟨h1, h2, h3⟩ := h0
    have hq0 : 0 < q := Nat.pos_of_ne_zero h3
    have hb0 : 0 < b := Nat.pos_of_ne_zero h2
    have hmul : q * b < U128 := u64_mul_lt_u128 hq hb
    by_cases hov : q + dq < U64
    · have hle : q * b / (q + dq) ≤ b := by
        calc q * b / (q + dq) ≤ q * b / q :=
              Nat.div_le_div_left (Nat.le_add_right q dq) hq0
          _ = b := Nat.mul_div_cancel_left b hq0
      have hlt : q * b / (q + dq) < U64 := lt_of_le_of_lt hle hb
      simp [calculate_buy_base_amount, checkedAdd, checkedMul, checkedDiv, checkedSub,
        castU64, h1, h2, h3, hov, hmul, Nat.mod_eq_of_lt hlt, hle,
        (by omega : ¬ (q + dq = 0))]
    · have hqq : q * b / q = b := Nat.mul_div_cancel_left b hq0
      simp [calculate_buy_base_amount, checkedAdd, checkedMul, checkedDiv, checkedSub,
        castU64, h1, h2, h3, hov, hmul, hqq, Nat.mod_eq_of_lt hb]

theorem sell_closed_form (din b q : Nat) (hb : b < U64) (hq : q < U64) :
    calculate_sell_quote_amount din b q =
      if din = 0 ∨ b = 0 ∨ q = 0 then 0
      else if b + din < U64 then q - q * b / (b + din) else 0 := by
  by_cases h0 : din = 0 ∨ b = 0 ∨ q = 0
  · simp [calculate_sell_quote_amount, h0]
  · push_neg at h0
    obtain ⟨h1, h2, h3⟩ := h0
    have hb0 : 0 < b := Nat.pos_of_ne_zero h2
    have hq0 : 0 < q := Nat.pos_of_ne_zero h3
    have hmul : q * b < U128 := u64_mul_lt_u128 hq hb
    by_cases hov : b + din < U64
    · have hle : q * b / (b + din) ≤ q := by
        calc q * b / (b + din) ≤ q * b / b :=
              Nat.div_le_div_left (Nat.le_add_right b din) hb0
          _ = q := Nat.mul_div_cancel q hb0
      have hlt : q * b / (b + din) < U64 := lt_of_le_of_lt hle hq
      simp [calculate_sell_quote_amount, checkedAdd, checkedMul, checkedDiv, checkedSub,
        castU64, h1, h2, h3, hov, hmul, Nat.mod_eq_of_lt hlt, hle,
        (by omega : ¬ (b + din = 0))]
    · have hbb : q * b / b = q := Nat.mul_div_cancel q hb0
      simp [calculate_sell_quote_amount, checkedAdd, checkedMul, checkedDiv, checkedSub,
        castU64, h1, h2, h3, hov, hmul, hbb, Nat.mod_eq_of_lt hq]

/-! ### The spec's overflow-as-no-op model

The specification states the overflow policy as: any
multiplication/addition/subtraction that would overflow the working
integer width returns the original left-hand operand unchanged. The
following definitions (clearly named `lhs…`) follow the spec's words:
they are the same computations as above with every potentially
overflowing step replaced by one yielding its left-hand operand on
overflow, to be compared with the embeddings of the source. -/

/-- Spec model: an overflowing addition yields its left-hand operand. -/
def lhsAdd (w a b : Nat) : Nat := if a + b < w then a + b else a

/-- Spec model: an overflowing multiplication yields its left-hand operand. -/
def lhsMul (w a b : Nat) : Nat := if a * b < w then a * b else a

/-- Spec model: an underflowing subtraction yields its left-hand operand. -/
def lhsSub (a b : Nat) : Nat := if b ≤ a then a - b else a

/-- Modelled from the spec: `calculate_buy_base_amount` with every
overflowing step degrading to its left-hand operand. -/
def lhs_buy_base_amount (quote_amount_in quote_reserve base_reserve : Nat) : Nat :=
  if quote_amount_in = 0 ∨ base_reserve = 0 ∨ quote_reserve = 0 then 0
  else
    let quote_reserve_after := lhsAdd U64 quote_reserve quote_amount_in
    let numerator := lhsMul U128 quote_reserve base_reserve
    if quote_reserve_after = 0 then 0
    else lhsSub base_reserve (castU64 (numerator / quote_reserve_after))

/-- Modelled from the spec: `calculate_sell_quote_amount` with every
overflowing step degrading to its left-hand operand. -/
def lhs_sell_quote_amount (base_amount_in base_reserve quote_reserve : Nat) : Nat :=
  if base_amount_in = 0 ∨ base_reserve = 0 ∨ quote_reserve = 0 then 0
  else
    let base_reserve_after := lhsAdd U64 base_reserve base_amount_in
    let numerator := lhsMul U128 quote_reserve base_reserve
    if base_reserve_after = 0 then 0
    else lhsSub quote_reserve (castU64 (numerator / base_reserve_after))

/-- Modelled from the spec: `min_amount_with_slippage` with every
overflowing step degrading to its left-hand operand. -/
def lhs_min_amount_with_slippage (input_amount slippage_bps : Nat) : Nat :=
  lhsMul U64 input_amount (lhsSub TEN_THOUSAND slippage_bps) / TEN_THOUSAND

/-- Modelled from the spec: `max_amount_with_slippage` with every
overflowing step degrading to its left-hand operand; in particular the
overflowing `slippage_bps + 10000` would yield `slippage_bps` here. -/
def lhs_max_amount_with_slippage (input_amount slippage_bps : Nat) : Nat :=
  lhsMul U64 input_amount (lhsAdd U64 slippage_bps TEN_THOUSAND) / TEN_THOUSAND

theorem lhs_buy_closed_form (dq q b : Nat) (hq : q < U64) (hb : b < U64) :
    lhs_buy_base_amount dq q b =
      if dq = 0 ∨ b = 0 ∨ q = 0 then 0
      else if q + dq < U64 then b - q * b / (q + dq) else 0 := by
  by_cases h0 : dq = 0 ∨ b = 0 ∨ q = 0
  · simp [lhs_buy_base_amount, h0]
  · push_neg at h0
    obtain ⟨h1, h2, h3⟩ := h0
    have hq0 : 0 < q := Nat.pos_of_ne_zero h3
    have hb0 : 0 < b := Nat.pos_of_ne_zero h2
    have hmul : q * b < U128 := u64_mul_lt_u128 hq hb
    by_cases hov : q + dq < U64
    · have hle : q * b / (q + dq) ≤ b := by
        calc q * b / (q + dq) ≤ q * b / q :=
              Nat.div_le_div_left (Nat.le_add_right q dq) hq0
          _ = b := Nat.mul_div_cancel_left b hq0
      have hlt : q * b / (q + dq) < U64 := lt_of_le_of_lt hle hb
      simp [lhs_buy_base_amount, lhsAdd, lhsMul, lhsSub, castU64,
        h1, h2, h3, hov, hmul, Nat.mod_eq_of_lt hlt, hle,
        (by omega : ¬ (q + dq = 0))]
    · have hqq : q * b / q = b := Nat.mul_div_cancel_left b hq0
      simp [lhs_buy_base_amount, lhsAdd, lhsMul, lhsSub, castU64,
        h1, h2, h3, hov, hmul, hqq, Nat.mod_eq_of_lt hb]

theorem lhs_sell_closed_form (din b q : Nat) (hb : b < U64) (hq : q < U64) :
    lhs_sell_quote_amount din b q =
      if din = 0 ∨ b = 0 ∨ q = 0 then 0
      else if b + din < U64 then q - q * b / (b + din) else 0 := by
  by_cases h0 : din = 0 ∨ b = 0 ∨ q = 0
  · simp [lhs_sell_quote_amount, h0]
  · push_neg at h0
    obtain ⟨h1, h2, h3⟩ := h0
    have hb0 : 0 < b := Nat.pos_of_ne_zero h2
    have hq0 : 0 < q := Nat.pos_of_ne_zero h3
    have hmul : q * b < U128 := u64_mul_lt_u128 hq hb
    by_cases hov : b + din < U64
    · have hle : q * b / (b + din) ≤ q := by
        calc q * b / (b + din) ≤ q * b / b :=
              Nat.div_le_div_left (Nat.le_add_right b din) hb0
          _ = q := Nat.mul_div_cancel q hb0
      have hlt : q * b / (b + din) < U64 := lt_of_le_of_lt hle hq
      simp [lhs_sell_quote_amount, lhsAdd, lhsMul, lhsSub, castU64,
        h1, h2, h3, hov, hmul, Nat.mod_eq_of_lt hlt, hle,
        (by omega : ¬ (b + din = 0))]
    · have hbb : q * b / b = q := Nat.mul_div_cancel q hb0
      simp [lhs_sell_quote_amount, lhsAdd, lhsMul, lhsSub, castU64,
        h1, h2, h3, hov, hmul, hbb, Nat.mod_eq_of_lt hq]

theorem min_eq_lhs_model (x s : Nat) :
    min_amount_with_slippage x s = lhs_min_amount_with_slippage x s := by
  simp only [min_amount_with_slippage, lhs_min_amount_with_slippage,
    checkedDiv, checkedMul, checkedSub, lhsMul, lhsSub, TEN_THOUSAND]
  norm_num
  by_cases hs : s ≤ 10000 <;> simp [hs] <;> split <;> simp_all

theorem max_eq_lhs_model (x s : Nat) (h : s + TEN_THOUSAND < U64) :
    max_amount_with_slippage x s = lhs_max_amount_with_slippage x s := by
  have h' : s + 10000 < U64 := by simpa [TEN_THOUSAND] using h
  simp only [max_amount_with_slippage, lhs_max_amount_with_slippage,
    checkedDiv, checkedMul, checkedAdd, lhsMul, lhsAdd, TEN_THOUSAND]
  norm_num
  simp [h']
  split <;> simp_all

theorem max_overflow_form (x s : Nat) (h : ¬ s + TEN_THOUSAND < U64) :
    max_amount_with_slippage x s =
      if x * TEN_THOUSAND < U64 then x else x / TEN_THOUSAND := by
  have h' : ¬ s + 10000 < U64 := by simpa [TEN_THOUSAND] using h
  simp only [max_amount_with_slippage, checkedDiv, checkedMul, checkedAdd, TEN_THOUSAND]
  norm_num
  simp [h']
  by_cases hm : x * 10000 < U64
  · simp [hm, Nat.mul_div_cancel x (by norm_num : 0 < 10000)]
  · simp [hm]

/-! ### Claim C1: buy-quote formula -/

/-- Claim C1 counterexample: at `quote_in = 1`, `quote_reserve = 2^64 - 1`,
`base_reserve = 2`, the code returns `0` while the claimed formula
`base_reserve - floor(quote_reserve*base_reserve / (quote_reserve+quote_in))`
gives `1`: the claim's unconditional formula fails once
`quote_reserve + quote_in` overflows `u64`. -/
theorem C1_counterexample :
    calculate_buy_base_amount 1 (U64 - 1) 2 ≠ 2 - (U64 - 1) * 2 / ((U64 - 1) + 1) := by
  decide

/-- Claim C1 (amended): for `u64` inputs, `calculate_buy_base_amount`
returns `0` in the degenerate cases, and otherwise returns
`base_reserve - floor(quote_reserve*base_reserve / (quote_reserve+quote_in))`
whenever `quote_reserve + quote_in` does not overflow `u64`; when that sum
overflows, the addition degrades to `quote_reserve` and the result is `0`.
In particular the concrete scenario returns `19_608`. -/
theorem C1_buy_quote_amended :
    (∀ dq q b : Nat, q < U64 → b < U64 →
        calculate_buy_base_amount dq q b =
          if dq = 0 ∨ b = 0 ∨ q = 0 then 0
          else if q + dq < U64 then b - q * b / (q + dq) else 0) ∧
    calculate_buy_base_amount 10000 500000 1000000 = 19608 :=
  ⟨buy_closed_form, by decide⟩

/-- Claim C1 witness: the amended closed form applied at the concrete
scenario of the spec. -/
theorem C1_witness :
    calculate_buy_base_amount 10000 500000 1000000 =
      (if (10000 : Nat) = 0 ∨ (1000000 : Nat) = 0 ∨ (500000 : Nat) = 0 then 0
       else if 500000 + 10000 < U64 then 1000000 - 500000 * 1000000 / (500000 + 10000) else 0) :=
  C1_buy_quote_amended.1 10000 500000 1000000 (by decide) (by decide)

/-! ### Claim C2: overflow-as-no-op policy -/

/-- Claim C2 counterexample: in `max_amount_with_slippage`, the overflowing
addition `slippage_bps.checked_add(TEN_THOUSAND)` falls back to
`TEN_THOUSAND` — its right-hand operand — not to the left-hand operand
`slippage_bps`; at `input = 1`, `slippage_bps = 2^64 - 1` the code returns
`1` while the left-operand model returns `(2^64-1)/10000`. -/
theorem C2_counterexample :
    max_amount_with_slippage 1 (U64 - 1) ≠ lhs_max_amount_with_slippage 1 (U64 - 1) := by
  decide

/-- Claim C2 (amended): the overflow-degrades-to-left-operand policy holds
for `calculate_buy_base_amount`, `calculate_sell_quote_amount` (for `u64`
inputs) and `min_amount_with_slippage` — each equals its left-operand
no-op model — and for `max_amount_with_slippage` whenever
`slippage_bps + 10000` does not overflow `u64`; when that addition
overflows it degrades to `10000` (the right-hand operand) instead, making
the function return `input` (or `input / 10000` if `input * 10000` also
overflows). -/
theorem C2_overflow_policy_amended :
    (∀ dq q b : Nat, q < U64 → b < U64 →
        calculate_buy_base_amount dq q b = lhs_buy_base_amount dq q b) ∧
    (∀ din b q : Nat, b < U64 → q < U64 →
        calculate_sell_quote_amount din b q = lhs_sell_quote_amount din b q) ∧
    (∀ x s : Nat, min_amount_with_slippage x s = lhs_min_amount_with_slippage x s) ∧
    (∀ x s : Nat, s + TEN_THOUSAND < U64 →
        max_amount_with_slippage x s = lhs_max_amount_with_slippage x s) ∧
    (∀ x s : Nat, ¬ s + TEN_THOUSAND < U64 →
        max_amount_with_slippage x s =
          if x * TEN_THOUSAND < U64 then x else x / TEN_THOUSAND) := by
  refine ⟨?_, ?_, min_eq_lhs_model, max_eq_lhs_model, max_overflow_form⟩
  · intro dq q b hq hb
    rw [buy_closed_form dq q b hq hb, lhs_buy_closed_form dq q b hq hb]
  · intro din b q hb hq
    rw [sell_closed_form din b q hb hq, lhs_sell_closed_form din b q hb hq]

/-- Claim C2 witness: the amended policy applied at concrete inputs. -/
theorem C2_witness :
    calculate_buy_base_amount 10000 500000 1000000 = lhs_buy_base_amount 10000 500000 1000000 ∧
    max_amount_with_slippage 100000 50 = lhs_max_amount_with_slippage 100000 50 :=
  ⟨C2_overflow_policy_amended.1 10000 500000 1000000 (by decide) (by decide),
   C2_overflow_policy_amended.2.2.2.1 100000 50 (by decide)⟩

/-! ### Claim C3: slippage bounds -/

/-- Claim C3 counterexample: for `x = 2^64 - 1`, `s = 50` the product
`x * 10050` overflows `u64`, the `checked_mul` falls back to `x`, and
`max_amount_with_slippage` returns `x / 10000 < x`: the claimed bound
`x ≤ max_amount_with_slippage x s` fails. -/
theorem C3_counterexample : ¬ (U64 - 1 ≤ max_amount_with_slippage (U64 - 1) 50) := by
  decide

/-- Claim C3 (amended): for every `x` and `s < 10000`,
`min_amount_with_slippage x s ≤ x`; and `x ≤ max_amount_with_slippage x s`
holds whenever `x * (10000 + s)` does not overflow `u64`. The concrete
scenario gives `max = 100_500` and `min = 99_500`. -/
theorem C3_slippage_bounds_amended :
    (∀ x s : Nat, s < TEN_THOUSAND → min_amount_with_slippage x s ≤ x) ∧
    (∀ x s : Nat, s < TEN_THOUSAND → x * (TEN_THOUSAND + s) < U64 →
        x ≤ max_amount_with_slippage x s) ∧
    max_amount_with_slippage 100000 50 = 100500 ∧
    min_amount_with_slippage 100000 50 = 99500 := by
  refine ⟨?_, ?_, by decide, by decide⟩
  · intro x s hs
    have hs' : s ≤ 10000 := by simp [TEN_THOUSAND] at hs; omega
    simp only [min_amount_with_slippage, checkedDiv, checkedMul, checkedSub, TEN_THOUSAND]
    norm_num
    by_cases hm : x * (10000 - s) < U64
    · simp [hs', hm]
      calc x * (10000 - s) / 10000 ≤ x * 10000 / 10000 :=
            Nat.div_le_div_right (Nat.mul_le_mul_left x (by omega))
        _ = x := Nat.mul_div_cancel x (by norm_num)
    · simp [hs', hm]
      exact Nat.div_le_self x 10000
  · intro x s hs hxm
    rcases Nat.eq_zero_or_pos x with rfl | hx
    · exact Nat.zero_le _
    have hs' : s < 10000 := by simpa [TEN_THOUSAND] using hs
    have hxm' : x * (10000 + s) < U64 := by simpa [TEN_THOUSAND] using hxm
    have hadd : s + 10000 < U64 :=
      lt_of_le_of_lt
        (by rw [Nat.add_comm s 10000]; exact Nat.le_mul_of_pos_left _ hx) hxm'
    have hmul : x * (s + 10000) < U64 := by rwa [Nat.add_comm 10000 s] at hxm'
    simp only [max_amount_with_slippage, checkedDiv, checkedMul, checkedAdd, TEN_THOUSAND]
    norm_num
    simp [hadd, hmul]
    calc x = x * 10000 / 10000 := (Nat.mul_div_cancel x (by norm_num)).symm
      _ ≤ x * (s + 10000) / 10000 :=
          Nat.div_le_div_right (Nat.mul_le_mul_left x (by omega))

/-- Claim C3 witness: both bounds at the concrete scenario `x = 100_000`,
`s = 50`. -/
theorem C3_witness :
    min_amount_with_slippage 100000 50 ≤ 100000 ∧
    100000 ≤ max_amount_with_slippage 100000 50 :=
  ⟨C3_slippage_bounds_amended.1 100000 50 (by decide),
   C3_slippage_bounds_amended.2.1 100000 50 (by decide) (by decide)⟩

/-! ### Claim C4: buy quote bounded by the base reserve -/

/-- Claim C4 counterexample: at `quote_in = 5`, `quote_reserve = 1`,
`base_reserve = 1` the floor term vanishes and the code returns exactly
`base_reserve`, so the claimed strict bound fails. -/
theorem C4_counterexample : ¬ (calculate_buy_base_amount 5 1 1 < 1) := by
  decide

/-- Claim C4 (amended): for positive `u64` inputs the buy quote never
exceeds `base_reserve`, and is strictly below it whenever
`quote_reserve * base_reserve ≥ quote_reserve + quote_in`; equality can
occur when that condition fails, as at `(5, 1, 1)`. -/
theorem C4_buy_lt_reserve_amended :
    ∀ dq q b : Nat, 0 < dq → 0 < q → 0 < b → q < U64 → b < U64 →
      calculate_buy_base_amount dq q b ≤ b ∧
      (q + dq ≤ q * b → calculate_buy_base_amount dq q b < b) := by
  intro dq q b hdq hq0 hb0 hq hb
  rw [buy_closed_form dq q b hq hb,
    if_neg (by push_neg; exact ⟨hdq.ne', hb0.ne', hq0.ne'⟩)]
  by_cases hov : q + dq < U64
  · rw [if_pos hov]
    set t := q * b / (q + dq) with ht
    refine ⟨Nat.sub_le _ _, fun hle => ?_⟩
    have h1 : 1 ≤ t := by
      rw [ht]
      exact (Nat.one_le_div_iff (by omega)).mpr hle
    omega
  · rw [if_neg hov]
    exact ⟨Nat.zero_le _, fun _ => hb0⟩

/-- Claim C4 witness: the amended bound at the concrete scenario of the
spec, where the strictness condition holds. -/
theorem C4_witness :
    calculate_buy_base_amount 10000 500000 1000000 ≤ 1000000 ∧
      (500000 + 10000 ≤ 500000 * 1000000 →
        calculate_buy_base_amount 10000 500000 1000000 < 1000000) :=
  C4_buy_lt_reserve_amended 10000 500000 1000000
    (by decide) (by decide) (by decide) (by decide) (by decide)

/-! ### Claim C10: slippage above 10000 basis points -/

/-- Claim C10 counterexample: for `x = 2^64 - 1` and
`slippage_bps = 10001` the fallback multiplier is `10000`, the product
overflows, and the function returns `x / 10000`, not `x` as claimed. -/
theorem C10_counterexample :
    min_amount_with_slippage (U64 - 1) 10001 ≠ U64 - 1 := by
  decide

/-- Claim C10 (amended): for `slippage_bps > 10000` the underflowing
subtraction degrades to a multiplier of `10000`, so
`min_amount_with_slippage` returns `x` when `x * 10000` fits in `u64` and
`x / 10000` otherwise; at `slippage_bps = 10000` exactly it returns `0`
for every `x`. -/
theorem C10_min_above_10000_amended :
    (∀ x s : Nat, TEN_THOUSAND < s →
        min_amount_with_slippage x s =
          if x * TEN_THOUSAND < U64 then x else x / TEN_THOUSAND) ∧
    (∀ x : Nat, min_amount_with_slippage x TEN_THOUSAND = 0) := by
  constructor
  · intro x s hs
    have hs' : ¬ s ≤ 10000 := by simp [TEN_THOUSAND] at hs; omega
    simp only [min_amount_with_slippage, checkedDiv, checkedMul, checkedSub, TEN_THOUSAND]
    norm_num
    simp [hs']
    by_cases hm : x * 10000 < U64
    · simp [hm, Nat.mul_div_cancel x (by norm_num : 0 < 10000)]
    · simp [hm]
  · intro x
    simp [min_amount_with_slippage, checkedDiv, checkedMul, checkedSub, TEN_THOUSAND, U64]

/-- Claim C10 witness: the amended statement applied at `x = 7`,
`s = 10001` and at `x = 3`, `s = 10000`. -/
theorem C10_witness :
    min_amount_with_slippage 7 10001 =
      (if 7 * TEN_THOUSAND < U64 then 7 else 7 / TEN_THOUSAND) ∧
    min_amount_with_slippage 3 TEN_THOUSAND = 0 :=
  ⟨C10_min_above_10000_amended.1 7 10001 (by decide),
   C10_min_above_10000_amended.2 3⟩

/-! ### Claim C5: buy-then-sell round trip -/

theorem add_div_le_succ (u v b : Nat) (hb : 0 < b) :
    (u + v) / b ≤ u / b + v / b + 1 := by
  refine Nat.le_of_lt_succ ?_
  rw [Nat.div_lt_iff_lt_mul hb]
  have hu : b * (u / b) + u % b = u := Nat.div_add_mod u b
  have hv : b * (v / b) + v % b = v := Nat.div_add_mod v b
  have hum : u % b < b := Nat.mod_lt _ hb
  have hvm : v % b < b := Nat.mod_lt _ hb
  have e : (u / b + v / b + 1 + 1) * b = b * (u / b) + b * (v / b) + (b + b) := by ring
  rw [e]
  have lin : ∀ A B mu mv : Nat, A + mu = u → B + mv = v → mu < b → mv < b →
      u + v < A + B + (b + b) := by
    intro A B mu mv e1 e2 l1 l2
    omega
  exact lin _ _ _ _ hu hv hum hvm

/-- Claim C5 counterexample: with reserves `(b, q) = (10, 10)` and
`quote_in = 5`, the buy returns `4` base tokens (floor rounds in the
buyer's favour) and selling those `4` straight back into the updated
reserves `(6, 15)` returns `6 > 5`: the round trip can return more quote
than was put in. -/
theorem C5_counterexample :
    ¬ (calculate_sell_quote_amount (calculate_buy_base_amount 5 10 10)
        (10 - calculate_buy_base_amount 5 10 10) (10 + 5) ≤ 5) := by
  decide

/-- Claim C5 (amended): selling the bought amount straight back into the
updated reserves returns at most `quote_in + (q + quote_in - 1)/b + 1`:
the round trip can exceed `quote_in`, but only by the floor-rounding
slack, bounded by `(q + dq - 1)/b + 1`. -/
theorem C5_roundtrip_amended (q b dq : Nat) (hq0 : 0 < q) (hb0 : 0 < b)
    (hb : b < U64) (hov : q + dq < U64) :
    calculate_sell_quote_amount (calculate_buy_base_amount dq q b)
        (b - calculate_buy_base_amount dq q b) (q + dq)
      ≤ dq + (q + dq - 1) / b + 1 := by
  have hq : q < U64 := by omega
  rcases Nat.eq_zero_or_pos dq with rfl | hdq
  · simp [calculate_buy_base_amount, calculate_sell_quote_amount]
  set d := q + dq with hd
  have hd0 : 0 < d := by omega
  have hbuy : calculate_buy_base_amount dq q b = b - q * b / d := by
    rw [buy_closed_form dq q b hq hb,
      if_neg (by push_neg; exact ⟨hdq.ne', hb0.ne', hq0.ne'⟩), if_pos hov]
  set k := q * b / d with hk
  have hkb : k < b := by
    rw [hk, Nat.div_lt_iff_lt_mul hd0]
    calc q * b < d * b := mul_lt_mul_of_pos_right (by omega) hb0
      _ = b * d := Nat.mul_comm _ _
  have hkU : k < U64 := lt_trans hkb hb
  rw [hbuy, Nat.sub_sub_self (le_of_lt hkb)]
  rw [sell_closed_form (b - k) k d hkU hov]
  rcases Nat.eq_zero_or_pos k with hk0 | hk1
  · rw [if_pos (Or.inr (Or.inl hk0))]
    exact Nat.zero_le _
  rw [if_neg (by push_neg; exact ⟨(by omega : b - k ≠ 0), hk1.ne', hd0.ne'⟩)]
  rw [Nat.add_sub_cancel' (le_of_lt hkb), if_pos hb]
  have hqb : q * b ≤ d * k + (d - 1) := by
    have hmod : q * b % d ≤ d - 1 := by
      have := Nat.mod_lt (q * b) hd0
      omega
    calc q * b = d * k + q * b % d := by rw [hk]; exact (Nat.div_add_mod _ _).symm
      _ ≤ d * k + (d - 1) := Nat.add_le_add_left hmod _
  have hqle : q ≤ d * k / b + (d - 1) / b + 1 := by
    have h1 : q * b / b ≤ (d * k + (d - 1)) / b := Nat.div_le_div_right hqb
    rw [Nat.mul_div_cancel q hb0] at h1
    exact le_trans h1 (add_div_le_succ (d * k) (d - 1) b hb0)
  have final : ∀ M E : Nat, q ≤ M + E + 1 → d - M ≤ dq + E + 1 := by
    intro M E h
    omega
  exact final (d * k / b) ((d - 1) / b) hqle

/-- Claim C5 witness: the amended round-trip bound at the counterexample's
own reserves, where the sell-back of `6` is within the allowed slack. -/
theorem C5_witness :
    calculate_sell_quote_amount (calculate_buy_base_amount 5 10 10)
        (10 - calculate_buy_base_amount 5 10 10) (10 + 5)
      ≤ 5 + (10 + 5 - 1) / 10 + 1 :=
  C5_roundtrip_amended 10 10 5 (by decide) (by decide) (by decide) (by decide)

/-! ## Arbitrage detection (`monitor.rs`, `arbitrage_monitor` sweep task)

The sweep task iterates every token with at least two DEX price samples
and compares every pair `(i, j)` with `i < j` of the sample vector. `f64`
prices are embedded as exact rationals. -/

/-- One DEX price sample `(dex name, (price, liquidity))` of the
`token_prices` map. -/
structure DexQuote where
  dexName : String
  price : ℚ
  liquidity : Nat
deriving DecidableEq, Repr

/-- The cached pool fields the sweep reads (`pool.dex_name`,
`pool.pool_id`). -/
structure CachedPool where
  dex_name : String
  pool_id : String
deriving DecidableEq, Repr

/-- One emitted arbitrage opportunity record. -/
structure ArbOpportunity where
  token_mint : String
  buy_dex : String
  buy_price : ℚ
  buy_pool : String
  sell_dex : String
  sell_price : ℚ
  sell_pool : String
  expected_profit_pct : ℚ
deriving DecidableEq, Repr

/-- The pool-id lookup loop of the sweep: starting from
`("unknown", "unknown")`, each cached pool whose `dex_name` matches the
buy DEX (or, failing that, the sell DEX) overwrites the respective id. -/
def findPoolIds (pools : List CachedPool) (buyDex sellDex : String) : String × String :=
  pools.foldl
    (fun acc pool =>
      if pool.dex_name = buyDex then (pool.pool_id, acc.2)
      else if pool.dex_name = sellDex then (acc.1, pool.pool_id)
      else acc)
    ("unknown", "unknown")

/-- The body of the sweep's inner pair loop: compute
`price_diff_pct = |price1 - price2| / price2 * 100`, emit iff it exceeds
the threshold and both liquidities are at least `min_liquidity`; the
cheaper venue becomes the buy side and
`expected_profit_pct = (sell - buy) / buy * 100`. -/
def checkArbPair (threshold : ℚ) (min_liquidity : Nat) (token_mint : String)
    (cachePools : List CachedPool) (d1 d2 : DexQuote) : Option ArbOpportunity :=
  let price_diff_pct := |d1.price - d2.price| / d2.price * 100
  if price_diff_pct > threshold ∧
      min_liquidity ≤ d1.liquidity ∧ min_liquidity ≤ d2.liquidity then
    let buy := if d1.price < d2.price then d1 else d2
    let sell := if d1.price < d2.price then d2 else d1
    let expected_profit_pct := (sell.price - buy.price) / buy.price * 100
    let ids := findPoolIds cachePools buy.dexName sell.dexName
    some ⟨token_mint, buy.dexName, buy.price, ids.1,
          sell.dexName, sell.price, ids.2, expected_profit_pct⟩
  else none

/-- All index pairs `(i, j)` with `i < j`, in the sweep's iteration
order. -/
def arbPairs : List DexQuote → List (DexQuote × DexQuote)
  | [] => []
  | d :: rest => rest.map (fun e => (d, e)) ++ arbPairs rest

/-- The per-token sweep: tokens with fewer than two samples are skipped,
otherwise every `i < j` pair is checked. -/
def checkTokenArb (threshold : ℚ) (min_liquidity : Nat) (token_mint : String)
    (cachePools : List CachedPool) (quotes : List DexQuote) : List ArbOpportunity :=
  if quotes.length < 2 then []
  else (arbPairs quotes).filterMap
    (fun p => checkArbPair threshold min_liquidity token_mint cachePools p.1 p.2)

/-! ### Claim C6: arbitrage emission -/

/-- Claim C6 counterexample: with a negative threshold (the threshold is
read unchecked from the environment) and two venues at the same price,
an opportunity is emitted whose buy price equals its sell price, so the
buy venue does not have the strictly lower price. -/
theorem C6_counterexample :
    checkArbPair (-1) 0 "tok" [] ⟨"dexA", 1, 1⟩ ⟨"dexB", 1, 1⟩ =
      some ⟨"tok", "dexB", 1, "unknown", "dexA", 1, "unknown", 0⟩ ∧
    ¬ ((1 : ℚ) < 1) := by
  constructor
  · norm_num [checkArbPair, findPoolIds]
  · exact lt_irrefl 1

/-- Claim C6 (amended): a pair of venue samples yields an opportunity if
and only if `|p1 - p2| / p2 * 100` exceeds the threshold and both
liquidities are at least `min_liquidity`; in every emitted opportunity
the buy venue's price is less than or equal to the sell venue's, strictly
lower whenever the two prices differ (hence always when the threshold is
nonnegative), and `expected_profit_pct = (sell - buy) / buy * 100`. -/
theorem C6_arbitrage_pair_amended :
    ∀ (threshold : ℚ) (minLiq : Nat) (mint : String) (cache : List CachedPool)
      (d1 d2 : DexQuote),
      ((checkArbPair threshold minLiq mint cache d1 d2).isSome = true ↔
        (|d1.price - d2.price| / d2.price * 100 > threshold ∧
          minLiq ≤ d1.liquidity ∧ minLiq ≤ d2.liquidity)) ∧
      (∀ o : ArbOpportunity, checkArbPair threshold minLiq mint cache d1 d2 = some o →
        o.buy_price ≤ o.sell_price ∧
        (d1.price ≠ d2.price → o.buy_price < o.sell_price) ∧
        (0 ≤ threshold → o.buy_price < o.sell_price) ∧
        o.expected_profit_pct = (o.sell_price - o.buy_price) / o.buy_price * 100) := by
  intro threshold minLiq mint cache d1 d2
  by_cases hcond : |d1.price - d2.price| / d2.price * 100 > threshold ∧
      minLiq ≤ d1.liquidity ∧ minLiq ≤ d2.liquidity
  · refine ⟨by simp [checkArbPair, hcond], ?_⟩
    intro o ho
    by_cases hp : d1.price < d2.price
    · simp only [checkArbPair, if_pos hcond, if_pos hp] at ho
      injection ho with h
      subst h
      exact ⟨le_of_lt hp, fun _ => hp, fun _ => hp, rfl⟩
    · simp only [checkArbPair, if_pos hcond, if_neg hp] at ho
      injection ho with h
      subst h
      have hle : d2.price ≤ d1.price := le_of_not_lt hp
      refine ⟨hle, fun hne => lt_of_le_of_ne hle (Ne.symm hne), fun hth => ?_, rfl⟩
      have hpos : |d1.price - d2.price| / d2.price * 100 > 0 :=
        lt_of_le_of_lt hth hcond.1
      have hne : d1.price ≠ d2.price := by
        intro he
        rw [he] at hpos
        simp at hpos
      exact lt_of_le_of_ne hle (Ne.symm hne)
  · refine ⟨by simp [checkArbPair, hcond], ?_⟩
    intro o ho
    simp [checkArbPair, hcond] at ho

/-- Claim C6 witness: the spec's concrete scenario C — prices `1.00` and
`1.03`, liquidities `20_000_000` and `15_000_000`, threshold `2.0`,
minimum liquidity `10_000_000` — emits an opportunity buying at the
strictly lower price. -/
theorem C6_witness :
    (checkArbPair 2 10000000 "tokX" []
        ⟨"dexA", 1, 20000000⟩ ⟨"dexB", 103 / 100, 15000000⟩).isSome = true ∧
    ((1 : ℚ) < 103 / 100) := by
  have habs : |(1 : ℚ) - 103 / 100| = 3 / 100 := by
    rw [show (1 : ℚ) - 103 / 100 = -(3 / 100) by norm_num, abs_neg,
      abs_of_pos (by norm_num : (0 : ℚ) < 3 / 100)]
  have hgt : ((2 : ℚ) < |(1 : ℚ) - 103 / 100| / (103 / 100) * 100) := by
    rw [habs]
    norm_num
  have h := C6_arbitrage_pair_amended 2 10000000 "tokX" []
    ⟨"dexA", 1, 20000000⟩ ⟨"dexB", 103 / 100, 15000000⟩
  have hcheck : checkArbPair 2 10000000 "tokX" []
      ⟨"dexA", 1, 20000000⟩ ⟨"dexB", 103 / 100, 15000000⟩ =
      some ⟨"tokX", "dexA", 1, "unknown", "dexB", 103 / 100, "unknown", 3⟩ := by
    simp only [checkArbPair, findPoolIds]
    rw [if_pos ⟨hgt, by norm_num, by norm_num⟩]
    norm_num
  exact ⟨h.1.mpr ⟨hgt, by norm_num, by norm_num⟩,
    (h.2 ⟨"tokX", "dexA", 1, "unknown", "dexB", 103 / 100, "unknown", 3⟩ hcheck).2.2.1
      (by norm_num)⟩

/-! ## Position ledger (`monitor.rs`, `copy_trader_pumpfun`)

The copy trader's shared state: the ledger `existing_liquidity_pools`
(a set of `LiquidityPool` entries mutated by retain-then-insert), the
global `BUYING_ENABLED` flag (initially `true`), and the buy tasks
spawned after admission. Instants are abstract `Nat` timestamps and
`f64` prices exact rationals. -/

/-- Position status (`Status` in `common::config`). -/
inductive Status where
  | Bought
  | Sold
  | Failure
deriving DecidableEq, Repr

/-- One ledger entry (`LiquidityPool` in `common::config`). -/
structure LiquidityPool where
  mint : String
  buy_price : ℚ
  sell_price : ℚ
  status : Status
  timestamp : Option Nat
deriving DecidableEq, Repr

/-- The duplicate guard of the event loop (monitor.rs 2015-2017):
`pools.iter().any(|pool| pool.mint == trade_info.mint)` — an entry of
any status matches. -/
def isDuplicate (pools : List LiquidityPool) (mint : String) : Bool :=
  pools.any (fun pool => pool.mint == mint)

/-- `pools.iter().any(|pool| pool.status == Status::Bought)`. -/
def hasBought (pools : List LiquidityPool) : Bool :=
  pools.any (fun pool => pool.status == Status.Bought)

/-- Number of ledger entries currently in status `Bought`. -/
def countBought (pools : List LiquidityPool) : Nat :=
  pools.countP (fun pool => pool.status == Status.Bought)

/-- The retain-then-insert upsert used on every ledger mutation
(`pools.retain(|pool| pool.mint != mint); pools.insert(entry)`). -/
def upsert (pools : List LiquidityPool) (entry : LiquidityPool) : List LiquidityPool :=
  pools.filter (fun pool => pool.mint != entry.mint) ++ [entry]

/-- A classified buy event as seen by the admission checks: its mint,
whether the actor matches a copy-trading target address, and the notional
buy amount in SOL. -/
structure BuyEvent where
  mint : String
  isFromTarget : Bool
  buyAmountSol : ℚ
deriving DecidableEq, Repr

/-- The admission checks of the event loop (monitor.rs 1974-2039): the
event must come from a copy target, its notional must not exceed
`max_dev_buy` nor fall below `min_dev_buy`, the duplicate guard must not
fire, and buying must be enabled. -/
def admissionChecks (minBuy maxBuy : ℚ) (pools : List LiquidityPool) (buyingEnabled : Bool)
    (e : BuyEvent) : Bool :=
  e.isFromTarget && !(e.buyAmountSol > maxBuy) && !(e.buyAmountSol < minBuy) &&
    !(isDuplicate pools e.mint) && buyingEnabled

/-- The shared state of `copy_trader_pumpfun`: ledger, accepted buy tasks
in flight, and the `BUYING_ENABLED` flag. -/
structure TraderState where
  pools : List LiquidityPool
  pendingBuys : List String
  buyingEnabled : Bool
deriving DecidableEq, Repr

/-- Admission effect (monitor.rs 2041-2045): clear `BUYING_ENABLED` and
spawn the buy task. -/
def admissionStep (s : TraderState) (mint : String) : TraderState :=
  { s with buyingEnabled := false, pendingBuys := mint :: s.pendingBuys }

/-- Successful buy (monitor.rs 2097-2118): upsert a `Bought` entry with
the realized price; the flag is left untouched (still `false`). -/
def buySuccessStep (s : TraderState) (mint : String) (price : ℚ) (t : Nat) : TraderState :=
  { s with
    pools := upsert s.pools ⟨mint, price, 0, Status.Bought, some t⟩,
    pendingBuys := s.pendingBuys.erase mint }

/-- Failed buy (monitor.rs 2120-2177): re-enable buying and upsert a
`Failure` entry. -/
def buyFailStep (s : TraderState) (mint : String) : TraderState :=
  { s with
    buyingEnabled := true,
    pools := upsert s.pools ⟨mint, 0, 0, Status.Failure, none⟩,
    pendingBuys := s.pendingBuys.erase mint }

/-- The periodic sweep's flag refresh (monitor.rs 1594-1632):
`BUYING_ENABLED := !has_bought_tokens`. -/
def sweepFlagStep (s : TraderState) : TraderState :=
  { s with buyingEnabled := !(hasBought s.pools) }

/-- Successful forced sell (monitor.rs 1700-1738): upsert a `Sold` entry
keeping the found entry's buy price, then re-enable buying if no `Bought`
entry remains. -/
def sellSuccessStep (s : TraderState) (mint : String) (price : ℚ) (t : Nat) : TraderState :=
  let oldBuy := ((s.pools.find? (fun pool => pool.mint == mint)).map
    (fun pool => pool.buy_price)).getD 0
  let pools2 := upsert s.pools ⟨mint, oldBuy, price, Status.Sold, some t⟩
  { s with
    pools := pools2,
    buyingEnabled := if hasBought pools2 then s.buyingEnabled else true }

/-- One interleaved step of the copy trader: admission, either buy
outcome, the sweep's flag refresh, or a successful forced sell (a failed
sell or failed sell-build leaves the state unchanged). Buy outcomes need
an accepted task in flight; a forced sell needs a `Bought` entry. -/
inductive Step : TraderState → TraderState → Prop where
  | admission (s : TraderState) (minBuy maxBuy : ℚ) (e : BuyEvent) :
      admissionChecks minBuy maxBuy s.pools s.buyingEnabled e = true →
      Step s (admissionStep s e.mint)
  | buyOk (s : TraderState) (mint : String) (price : ℚ) (t : Nat) :
      mint ∈ s.pendingBuys → Step s (buySuccessStep s mint price t)
  | buyErr (s : TraderState) (mint : String) :
      mint ∈ s.pendingBuys → Step s (buyFailStep s mint)
  | sweep (s : TraderState) : Step s (sweepFlagStep s)
  | sellOk (s : TraderState) (mint : String) (price : ℚ) (t : Nat) :
      (∃ pool ∈ s.pools, pool.mint = mint ∧ pool.status = Status.Bought) →
      Step s (sellSuccessStep s mint price t)

/-- Initial state: empty ledger, no tasks, `BUYING_ENABLED = true`. -/
def initialState : TraderState := ⟨[], [], true⟩

/-- Reachability under interleaved steps. -/
inductive Reachable : TraderState → Prop where
  | init : Reachable initialState
  | step {s s' : TraderState} : Reachable s → Step s s' → Reachable s'

/-- The atomic model: an accepted buy's outcome is applied in the same
step as its admission, with no step interleaved between the flag clear
and the task outcome. -/
inductive AtomicStep : TraderState → TraderState → Prop where
  | buyOk (s : TraderState) (minBuy maxBuy : ℚ) (e : BuyEvent) (price : ℚ) (t : Nat) :
      admissionChecks minBuy maxBuy s.pools s.buyingEnabled e = true →
      AtomicStep s (buySuccessStep (admissionStep s e.mint) e.mint price t)
  | buyErr (s : TraderState) (minBuy maxBuy : ℚ) (e : BuyEvent) :
      admissionChecks minBuy maxBuy s.pools s.buyingEnabled e = true →
      AtomicStep s (buyFailStep (admissionStep s e.mint) e.mint)
  | sweep (s : TraderState) : AtomicStep s (sweepFlagStep s)
  | sellOk (s : TraderState) (mint : String) (price : ℚ) (t : Nat) :
      (∃ pool ∈ s.pools, pool.mint = mint ∧ pool.status = Status.Bought) →
      AtomicStep s (sellSuccessStep s mint price t)

/-- Reachability under atomic steps. -/
inductive AtomicReachable : TraderState → Prop where
  | init : AtomicReachable initialState
  | step {s s' : TraderState} : AtomicReachable s → AtomicStep s s' → AtomicReachable s'

/-! ### Ledger counting lemmas -/

theorem countBought_filter_partition (l : List LiquidityPool) (m : String) :
    countBought l =
      countBought (l.filter (fun pool => pool.mint != m)) +
        countBought (l.filter (fun pool => pool.mint == m)) := by
  induction l with
  | nil => rfl
  | cons a l ih =>
    by_cases hm : a.mint = m <;>
      by_cases hs : a.status = Status.Bought <;>
        simp [countBought, List.filter_cons, List.countP_cons, hm, hs] at * <;>
          omega

theorem countBought_filter_le (l : List LiquidityPool) (m : String) :
    countBought (l.filter (fun pool => pool.mint != m)) ≤ countBought l := by
  rw [countBought_filter_partition l m]
  exact Nat.le_add_right _ _

theorem countBought_upsert (l : List LiquidityPool) (e : LiquidityPool) :
    countBought (upsert l e) =
      countBought (l.filter (fun pool => pool.mint != e.mint)) +
        (if e.status = Status.Bought then 1 else 0) := by
  by_cases h : e.status = Status.Bought <;>
    simp [upsert, countBought, List.countP_append, List.countP_cons, h]

theorem hasBought_true_iff (l : List LiquidityPool) :
    hasBought l = true ↔ 0 < countBought l := by
  simp [hasBought, countBought, List.any_eq_true, List.countP_pos_iff]

theorem hasBought_false_iff (l : List LiquidityPool) :
    hasBought l = false ↔ countBought l = 0 := by
  rw [← Bool.not_eq_true, hasBought_true_iff]
  omega

theorem countBought_filter_eq_pos {l : List LiquidityPool} {m : String}
    (h : ∃ pool ∈ l, pool.mint = m ∧ pool.status = Status.Bought) :
    0 < countBought (l.filter (fun pool => pool.mint == m)) := by
  obtain ⟨p, hmem, hmint, hstat⟩ := h
  unfold countBought
  exact List.countP_pos_iff.mpr
    ⟨p, List.mem_filter.mpr ⟨hmem, by simp [hmint]⟩, by simp [hstat]⟩

theorem admissionChecks_enabled {minBuy maxBuy : ℚ} {pools : List LiquidityPool}
    {enabled : Bool} {e : BuyEvent}
    (h : admissionChecks minBuy maxBuy pools enabled e = true) : enabled = true := by
  simp [admissionChecks, Bool.and_eq_true] at h
  exact h.2

/-! ### Claim C7: at-most-one-Bought invariant -/

/-- Claim C7 counterexample: one admission step from the initial state
reaches a state with no `Bought` entry but buying disabled — the claimed
"buying-enabled iff no Bought entry" fails in the interleaved system
between an admission and its task's outcome. -/
theorem C7_counterexample :
    Reachable ⟨[], ["mintA"], false⟩ ∧
    ¬ (((⟨[], ["mintA"], false⟩ : TraderState).buyingEnabled = true ↔
        countBought (⟨[], ["mintA"], false⟩ : TraderState).pools = 0)) := by
  constructor
  · have h : Step initialState (admissionStep initialState "mintA") :=
      Step.admission initialState 0 1 ⟨"mintA", true, 1⟩ (by decide)
    exact Reachable.step Reachable.init h
  · simp [countBought]

/-- Claim C7 (amended): in every state reachable when each accepted buy
resolves atomically with its admission (no sweep, sell, or other buy
interleaved between the flag clear and the task outcome), the ledger has
at most one `Bought` entry and the buying-enabled flag is true iff that
count is zero. In the interleaved system the iff fails transiently
between an admission and its outcome, and the sweep's flag refresh during
an in-flight buy can let a second buy through admission. -/
theorem C7_ledger_invariant_amended :
    ∀ s : TraderState, AtomicReachable s →
      countBought s.pools ≤ 1 ∧
        (s.buyingEnabled = true ↔ countBought s.pools = 0) := by
  intro s h
  induction h with
  | init => simp [initialState, countBought]
  | step hr hstep ih =>
    rename_i s1 s2
    cases hstep with
    | buyOk minBuy maxBuy e price t hadm =>
      have hc0 : countBought s1.pools = 0 := ih.2.mp (admissionChecks_enabled hadm)
      have hle := countBought_filter_le s1.pools e.mint
      simp only [buySuccessStep, admissionStep, countBought_upsert]
      refine ⟨?_, ?_⟩
      · simp
        omega
      · simp
    | buyErr minBuy maxBuy e hadm =>
      have hc0 : countBought s1.pools = 0 := ih.2.mp (admissionChecks_enabled hadm)
      have hle := countBought_filter_le s1.pools e.mint
      simp only [buyFailStep, admissionStep, countBought_upsert]
      constructor <;> simp <;> omega
    | sweep =>
      refine ⟨ih.1, ?_⟩
      simp only [sweepFlagStep]
      cases hb : hasBought s1.pools
      · simp
        exact (hasBought_false_iff _).mp hb
      · simp
        have := (hasBought_true_iff _).mp hb
        omega
    | sellOk mint price t hex =>
      have hc1 : countBought s1.pools ≤ 1 := ih.1
      have hpos := countBought_filter_eq_pos hex
      have hpart := countBought_filter_partition s1.pools mint
      have hfil : countBought (s1.pools.filter (fun pool => pool.mint != mint)) = 0 := by
        omega
      have hcount2 : countBought (upsert s1.pools
          ⟨mint, ((s1.pools.find? (fun pool => pool.mint == mint)).map
            (fun pool => pool.buy_price)).getD 0, price, Status.Sold, some t⟩) = 0 := by
        rw [countBought_upsert]
        simp [hfil]
      have hhb : hasBought (upsert s1.pools
          ⟨mint, ((s1.pools.find? (fun pool => pool.mint == mint)).map
            (fun pool => pool.buy_price)).getD 0, price, Status.Sold, some t⟩) = false :=
        (hasBought_false_iff _).mpr hcount2
      simp only [sellSuccessStep]
      rw [hhb]
      simp [hcount2]

/-- Claim C7 witness: the amended invariant applied at the initial
state. -/
theorem C7_witness :
    countBought initialState.pools ≤ 1 ∧
      (initialState.buyingEnabled = true ↔ countBought initialState.pools = 0) :=
  C7_ledger_invariant_amended initialState AtomicReachable.init

/-! ### Claim C9: Failed entries and re-admission -/

/-- Claim C9 counterexample: a ledger holding only a `Failure` entry for
`"mintA"` (and hence no `Bought` entry) rejects a qualifying buy event
for the same mint — the duplicate guard matches entries of any status, so
a `Failed` entry does block re-attempting the mint. -/
theorem C9_counterexample :
    admissionChecks 0 1 [⟨"mintA", 0, 0, Status.Failure, none⟩] true ⟨"mintA", true, 1⟩ = false := by
  decide

/-- Claim C9 (amended): the duplicate guard
`pools.iter().any(|pool| pool.mint == mint)` matches entries of any
status, so any existing ledger entry for a mint — `Failure` and `Sold`
included — makes admission reject a subsequent buy event for that mint;
re-attempting is blocked while the entry remains. -/
theorem C9_duplicate_guard_amended :
    ∀ (minBuy maxBuy : ℚ) (pools : List LiquidityPool) (enabled : Bool) (e : BuyEvent),
      isDuplicate pools e.mint = true →
      admissionChecks minBuy maxBuy pools enabled e = false := by
  intro minBuy maxBuy pools enabled e hdup
  simp [admissionChecks, hdup]

/-- Claim C9 witness: the amended guard applied to a ledger holding a
`Failure` entry for the event's mint. -/
theorem C9_witness :
    admissionChecks 0 2 [⟨"mintB", 0, 0, Status.Failure, none⟩] true ⟨"mintB", true, 1⟩ = false :=
  C9_duplicate_guard_amended 0 2 [⟨"mintB", 0, 0, Status.Failure, none⟩] true
    ⟨"mintB", true, 1⟩ (by simp [isDuplicate])

/-! ## Event classification (`monitor.rs`, `TradeInfoFromToken::from_json`)

Byte vectors (`Vec<u8>`) are `List Nat`, public keys the 32-byte lists,
and the base58 rendering done by the external SDK is abstracted as an
injective decimal rendering. The `PUMP_SWAP_*` log-marker constants live
in `common::config`, outside `src/`, and are passed as parameters, as is
the DEX registry's program-id set and Rust's `f64` parser. -/

/-- Rust `log.contains(pat)`: the pattern occurs as a substring.
Implemented structurally on the character lists. -/
def listStartsWith : List Char → List Char → Bool
  | _, [] => true
  | [], _ :: _ => false
  | c :: s, p :: ps => c == p && listStartsWith s ps

/-- Helper scan for `containsSubstr`. -/
def listContainsAux : List Char → List Char → Bool
  | [], pat => pat.isEmpty
  | c :: s, pat => listStartsWith (c :: s) pat || listContainsAux s pat

/-- Rust `s.contains(pat)`. -/
def containsSubstr (s pat : String) : Bool :=
  listContainsAux s.data pat.data

/-- Rust `value_str.parse::<u64>()`: optional leading `+`, ASCII digits,
value below `2^64`. -/
def parseU64 (s : String) : Option Nat :=
  let t := if s.startsWith "+" then s.drop 1 else s
  match t.toNat? with
  | some n => if n < U64 then some n else none
  | none => none

/-- The `log.split(key).nth(1).map(str::trim)` then `parse::<u64>()`
extraction of one log line. -/
def extractU64Value (key log : String) : Option Nat :=
  match (log.splitOn key).get? 1 with
  | some value_str => parseU64 value_str.trim
  | none => none

/-- The per-key scan of all log lines: each successful parse overwrites
the previous value, so the last successful parse wins. -/
def scanU64 (logs : List String) (key : String) : Option Nat :=
  logs.foldl
    (fun acc log =>
      match extractU64Value key log with
      | some v => some v
      | none => acc)
    none

/-- The string-valued scan (`source_dex:`, `target_dex:`): the split
succeeds whenever the key occurs, and the trimmed remainder is kept. -/
def scanStr (logs : List String) (key : String) : Option String :=
  logs.foldl
    (fun acc log =>
      match (log.splitOn key).get? 1 with
      | some v => some v.trim
      | none => acc)
    none

/-- The `f64`-valued scan (`price_difference:`, `expected_profit:`),
parameterised by the external float parser. -/
def scanF64 (pf : String → Option ℚ) (logs : List String) (key : String) : Option ℚ :=
  logs.foldl
    (fun acc log =>
      match (log.splitOn key).get? 1 with
      | some v =>
        match pf v.trim with
        | some q => some q
        | none => acc
      | none => acc)
    none

/-- The first-match scan with break (`token_mint:` in the arbitrage
arm). -/
def firstStr (logs : List String) (key : String) : Option String :=
  logs.findSome? (fun log => ((log.splitOn key).get? 1).map (fun v => v.trim))

/-- `InstructionType` of `monitor.rs`. -/
inductive InstructionType where
  | SwapBuy
  | SwapSell
  | ArbitrageSwap
deriving DecidableEq, Repr

/-- The log-marker constants (`PUMP_SWAP_BUY_LOG_INSTRUCTION`,
`PUMP_SWAP_BUY_PROGRAM_DATA_PREFIX`, and the sell pair) imported from
`common::config`, which is outside `src/`; their values are abstract. -/
structure LogMarkers where
  buyLogInstruction : String
  buyProgramDataMark : String
  sellLogInstruction : String
  sellProgramDataMark : String

/-- The hard-coded PumpSwap program log line of the fallback branch. -/
def pammProgramLog : String := "Program pAMMBay6oceH9fJKBRHGP5D4bD4sWpmSwMn52FMfXEA"

/-- The fallback inner loop: the first log containing a named event
marker (checked in `BuyEvent`, `SellEvent`, `ArbitrageEvent` order per
line) decides; otherwise the incoming type is kept. -/
def detectFallback : List String → InstructionType → InstructionType
  | [], ty => ty
  | log :: rest, ty =>
    if containsSubstr log "BuyEvent" then InstructionType.SwapBuy
    else if containsSubstr log "SellEvent" then InstructionType.SwapSell
    else if containsSubstr log "ArbitrageEvent" then InstructionType.ArbitrageSwap
    else detectFallback rest ty

/-- The outer detection loop of `from_json` (monitor.rs 223-271):
`instruction_type` starts as `SwapBuy`; a buy marker co-occurring with
the buy program-data marker (or the sell pair) decides and breaks; a
PumpSwap program line triggers the fallback scan and always breaks
(`matches!` is true for the initial `SwapBuy` too); a fully unrecognized
log list leaves the `SwapBuy` default. -/
def detectInstructionTypeAux (m : LogMarkers) (allLogs : List String) :
    List String → InstructionType
  | [] => InstructionType.SwapBuy
  | log :: rest =>
    if containsSubstr log m.buyLogInstruction &&
        allLogs.any (fun l => containsSubstr l m.buyProgramDataMark) then
      InstructionType.SwapBuy
    else if containsSubstr log m.sellLogInstruction &&
        allLogs.any (fun l => containsSubstr l m.sellProgramDataMark) then
      InstructionType.SwapSell
    else if containsSubstr log pammProgramLog then
      detectFallback allLogs InstructionType.SwapBuy
    else
      detectInstructionTypeAux m allLogs rest

/-- Instruction-type detection over the whole log list. -/
def detectInstructionType (m : LogMarkers) (logs : List String) : InstructionType :=
  detectInstructionTypeAux m logs logs

/-- One compiled instruction of the transaction message. -/
structure CompiledIx where
  program_id_index : Nat
  accounts : List Nat
deriving DecidableEq, Repr

/-- The transaction message: blockhash bytes, account keys, instructions. -/
structure TxMessage where
  recent_blockhash : List Nat
  account_keys : List (List Nat)
  instructions : List CompiledIx
deriving DecidableEq, Repr

/-- The inner transaction, which optionally carries the message. -/
structure InnerTransaction where
  message : Option TxMessage
deriving DecidableEq, Repr

/-- One post-transaction token balance; `ui_token_amount.map(ui_amount)`
is collapsed into an optional exact amount. -/
structure TokenBalance where
  owner : String
  ui_token_amount : Option ℚ
deriving DecidableEq, Repr

/-- The transaction meta carrying post-transaction token balances. -/
structure TxMeta where
  post_token_balances : List TokenBalance
deriving DecidableEq, Repr

/-- `ConfirmedTransaction`: signature bytes, optional inner transaction,
optional meta. -/
structure ConfirmedTransaction where
  signature : List Nat
  transaction : Option InnerTransaction
  meta : Option TxMeta
deriving DecidableEq, Repr

/-- `SubscribeUpdateTransaction`: the slot and the optional envelope. -/
structure SubscribeUpdateTransaction where
  slot : Nat
  transaction : Option ConfirmedTransaction
deriving DecidableEq, Repr

/-- `Pubkey::default()`: 32 zero bytes. -/
def pubkeyDefault : List Nat := List.replicate 32 0

/-- `Pubkey::try_from(Vec<u8>)`: succeeds exactly on 32 bytes. -/
def pubkeyFromBytes (bytes : List Nat) : Option (List Nat) :=
  if bytes.length = 32 then some bytes else none

/-- Abstraction of the SDK's base58 rendering of a byte vector: any
injective rendering serves the classifier equally. -/
def renderBytes (bytes : List Nat) : String :=
  String.intercalate "," (bytes.map (fun b => toString b))

/-- `Signature::try_from` (succeeds exactly on 64 bytes) followed by the
debug rendering; failure leaves the empty string. -/
def renderSignature (bytes : List Nat) : String :=
  if bytes.length = 64 then renderBytes bytes else ""

/-- `PoolInfo` extracted by `extract_pool_info_from_transaction`. -/
structure PoolInfo where
  pool_id : List Nat
  base_mint : List Nat
  quote_mint : List Nat
  pool_base_token_account : List Nat
  pool_quote_token_account : List Nat
  base_reserve : Nat
  quote_reserve : Nat
deriving DecidableEq, Repr

/-- Positional account read (monitor.rs 626-672): account index `i` of
the instruction, resolved through the key table; any lookup or parse
failure leaves `Pubkey::default()`. -/
def readIndexed (account_keys : List (List Nat)) (accounts : List Nat) (i : Nat) :
    List Nat :=
  match accounts.get? i with
  | some idx =>
    match account_keys.get? idx with
    | some key => (pubkeyFromBytes key).getD pubkeyDefault
    | none => pubkeyDefault
  | none => pubkeyDefault

/-- The first instruction whose program key resolves to a known DEX
program id (monitor.rs 615-621). -/
def findDexInstruction (dexProgramIds : List (List Nat)) (msg : TxMessage) :
    Option CompiledIx :=
  msg.instructions.find?
    (fun ix =>
      match msg.account_keys.get? ix.program_id_index with
      | some key =>
        match pubkeyFromBytes key with
        | some pk => dexProgramIds.contains pk
        | none => false
      | none => false)

/-- `extract_pool_info_from_transaction` (monitor.rs 598-715): positional
offsets 0, 3, 4, 7, 8 of the first DEX instruction, reserves scanned from
the logs, and `Some` only when pool id and base mint moved off their
defaults. The Rust `Result` wrapper never errors. -/
def extract_pool_info_from_transaction (dexProgramIds : List (List Nat))
    (t : ConfirmedTransaction) (log_messages : List String) : Option PoolInfo :=
  match t.transaction.bind (fun tx => tx.message) with
  | some msg =>
    let ids := match findDexInstruction dexProgramIds msg with
      | some ix =>
        (readIndexed msg.account_keys ix.accounts 0,
         readIndexed msg.account_keys ix.accounts 3,
         readIndexed msg.account_keys ix.accounts 4,
         readIndexed msg.account_keys ix.accounts 7,
         readIndexed msg.account_keys ix.accounts 8)
      | none => (pubkeyDefault, pubkeyDefault, pubkeyDefault, pubkeyDefault, pubkeyDefault)
    let base_reserve := (scanU64 log_messages "pool_base_token_reserves:").getD 0
    let quote_reserve := (scanU64 log_messages "pool_quote_token_reserves:").getD 0
    if ids.1 ≠ pubkeyDefault ∧ ids.2.1 ≠ pubkeyDefault then
      some ⟨ids.1, ids.2.1, ids.2.2.1, ids.2.2.2.1, ids.2.2.2.2,
            base_reserve, quote_reserve⟩
    else none
  | none => none

/-- `extract_target_address_from_transaction` (monitor.rs 718-731): the
first account key, rendered; any failure yields the empty string. -/
def extract_target_address_from_transaction (t : ConfirmedTransaction) : String :=
  match t.transaction.bind (fun tx => tx.message) with
  | some msg =>
    match msg.account_keys.head? with
    | some key =>
      match pubkeyFromBytes key with
      | some pk => renderBytes pk
      | none => ""
    | none => ""
  | none => ""

/-- The token-amount resolution (monitor.rs 332-349): first
post-transaction balance owned by the target, default `0`. -/
def extractTokenAmount (t : ConfirmedTransaction) (target : String) : ℚ :=
  match t.meta with
  | some meta =>
    ((meta.post_token_balances.filterMap
        (fun tb => if tb.owner = target then tb.ui_token_amount else none)).head?).getD 0
  | none => 0

/-- The classified trade record (`TradeInfoFromToken`). -/
structure TradeInfoFromToken where
  instruction_type : InstructionType
  slot : Nat
  recent_blockhash : List Nat
  signature : String
  target : String
  mint : String
  pool_info : Option PoolInfo
  token_amount : ℚ
  amount : Option Nat
  base_amount_in : Option Nat
  min_quote_amount_out : Option Nat
  base_amount_out : Option Nat
  max_quote_amount_in : Option Nat
  source_dex : Option String
  target_dex : Option String
  price_difference : Option ℚ
  expected_profit : Option ℚ
deriving DecidableEq, Repr

/-- `TradeInfoFromToken::from_json` (monitor.rs 209-594): detect the
instruction type from the logs (defaulting to `SwapBuy`), extract the
direction-specific amounts, then require the envelope
(`"Transaction is None"` otherwise) and the message's blockhash
(`"Failed to get recent blockhash"` otherwise); the trailing
`"Failed to parse transaction"` return is unreachable, every match arm
having returned. -/
def from_json (m : LogMarkers) (dexProgramIds : List (List Nat))
    (pf : String → Option ℚ) (txn : SubscribeUpdateTransaction)
    (log_messages : List String) : Except String TradeInfoFromToken :=
  let slot := txn.slot
  let instruction_type := detectInstructionType m log_messages
  match instruction_type with
  | InstructionType.SwapBuy =>
    let base_amount_out := scanU64 log_messages "base_amount_out:"
    let max_quote_amount_in := scanU64 log_messages "max_quote_amount_in:"
    match txn.transaction with
    | some transaction =>
      let signature := renderSignature transaction.signature
      match transaction.transaction.bind (fun t => t.message) with
      | none => Except.error "Failed to get recent blockhash"
      | some msg =>
        let pool_info := extract_pool_info_from_transaction dexProgramIds
          transaction log_messages
        let target := extract_target_address_from_transaction transaction
        let token_amount := extractTokenAmount transaction target
        let mint := match pool_info with
          | some pool => renderBytes pool.base_mint
          | none => ""
        Except.ok
          { instruction_type := InstructionType.SwapBuy, slot := slot,
            recent_blockhash := msg.recent_blockhash, signature := signature,
            target := target, mint := mint, pool_info := pool_info,
            token_amount := token_amount, amount := none,
            base_amount_in := none, min_quote_amount_out := none,
            base_amount_out := base_amount_out,
            max_quote_amount_in := max_quote_amount_in,
            source_dex := none, target_dex := none,
            price_difference := none, expected_profit := none }
    | none => Except.error "Transaction is None"
  | InstructionType.SwapSell =>
    let base_amount_in := scanU64 log_messages "base_amount_in:"
    let min_quote_amount_out := scanU64 log_messages "min_quote_amount_out:"
    match txn.transaction with
    | some transaction =>
      let signature := renderSignature transaction.signature
      match transaction.transaction.bind (fun t => t.message) with
      | none => Except.error "Failed to get recent blockhash"
      | some msg =>
        let pool_info := extract_pool_info_from_transaction dexProgramIds
          transaction log_messages
        let target := extract_target_address_from_transaction transaction
        let token_amount := extractTokenAmount transaction target
        let mint := match pool_info with
          | some pool => renderBytes pool.base_mint
          | none => ""
        Except.ok
          { instruction_type := InstructionType.SwapSell, slot := slot,
            recent_blockhash := msg.recent_blockhash, signature := signature,
            target := target, mint := mint, pool_info := pool_info,
            token_amount := token_amount, amount := none,
            base_amount_in := base_amount_in,
            min_quote_amount_out := min_quote_amount_out,
            base_amount_out := none, max_quote_amount_in := none,
            source_dex := none, target_dex := none,
            price_difference := none, expected_profit := none }
    | none => Except.error "Transaction is None"
  | InstructionType.ArbitrageSwap =>
    let source_dex := scanStr log_messages "source_dex:"
    let target_dex := scanStr log_messages "target_dex:"
    let price_difference := scanF64 pf log_messages "price_difference:"
    let expected_profit := scanF64 pf log_messages "expected_profit:"
    match txn.transaction with
    | some transaction =>
      let signature := renderSignature transaction.signature
      match transaction.transaction.bind (fun t => t.message) with
      | none => Except.error "Failed to get recent blockhash"
      | some msg =>
        let target := extract_target_address_from_transaction transaction
        let mint := (firstStr log_messages "token_mint:").getD ""
        Except.ok
          { instruction_type := InstructionType.ArbitrageSwap, slot := slot,
            recent_blockhash := msg.recent_blockhash, signature := signature,
            target := target, mint := mint, pool_info := none,
            token_amount := 0, amount := none,
            base_amount_in := none, min_quote_amount_out := none,
            base_amount_out := none, max_quote_amount_in := none,
            source_dex := source_dex, target_dex := target_dex,
            price_difference := price_difference, expected_profit := expected_profit }
    | none => Except.error "Transaction is None"

/-! ### Claim C8: classification error exits -/

theorem detectAux_default (m : LogMarkers) (allLogs : List String) :
    ∀ rest : List String,
      (∀ log ∈ rest,
        containsSubstr log m.buyLogInstruction = false ∧
        containsSubstr log m.sellLogInstruction = false ∧
        containsSubstr log pammProgramLog = false) →
      detectInstructionTypeAux m allLogs rest = InstructionType.SwapBuy := by
  intro rest
  induction rest with
  | nil => intro _; rfl
  | cons log rest ih =>
    intro h
    obtain ⟨h1, h2, h3⟩ := h log (by simp)
    simp only [detectInstructionTypeAux, h1, h2, h3, Bool.false_and, if_neg]
    exact ih (fun l hl => h l (by simp [hl]))

/-- Claim C8 counterexample: a transaction whose envelope and message are
present but whose log list determines no instruction type (it is empty)
classifies successfully as the default `SwapBuy` — there is no
`Unrecognized` failure; the `"Failed to parse transaction"` return of
`from_json` is unreachable. -/
theorem C8_counterexample :
    (from_json ⟨"BUYLOG", "BUYDATA", "SELLLOG", "SELLDATA"⟩ [] (fun _ => none)
        ⟨5, some ⟨List.replicate 64 0, some ⟨some ⟨[1, 2, 3], [], []⟩⟩, none⟩⟩ []).map
      (fun info => info.instruction_type) = Except.ok InstructionType.SwapBuy := rfl

/-- Claim C8 (amended): for every marker set, registry, float parser,
transaction and log list, `from_json` fails with `"Transaction is None"`
when the envelope is absent, fails with
`"Failed to get recent blockhash"` when the envelope is present but the
inner transaction carries no message, and these are its only error exits;
when no log line contains a recognized discriminator the instruction type
does not fail as `Unrecognized` but defaults to `SwapBuy`. -/
theorem C8_classification_errors_amended :
    ∀ (m : LogMarkers) (dexIds : List (List Nat)) (pf : String → Option ℚ)
      (txn : SubscribeUpdateTransaction) (logs : List String),
      (txn.transaction = none →
        from_json m dexIds pf txn logs = Except.error "Transaction is None") ∧
      (∀ ct : ConfirmedTransaction, txn.transaction = some ct →
        ct.transaction.bind (fun t => t.message) = none →
        from_json m dexIds pf txn logs = Except.error "Failed to get recent blockhash") ∧
      (∀ emsg : String, from_json m dexIds pf txn logs = Except.error emsg →
        emsg = "Transaction is None" ∨ emsg = "Failed to get recent blockhash") ∧
      ((∀ log ∈ logs,
          containsSubstr log m.buyLogInstruction = false ∧
          containsSubstr log m.sellLogInstruction = false ∧
          containsSubstr log pammProgramLog = false) →
        detectInstructionType m logs = InstructionType.SwapBuy) := by
  intro m dexIds pf txn logs
  refine ⟨?_, ?_, ?_, ?_⟩
  · intro hnone
    rcases hdet : detectInstructionType m logs <;>
      simp [from_json, hdet, hnone]
  · intro ct hct hb
    rcases hdet : detectInstructionType m logs <;>
      simp [from_json, hdet, hct, hb]
  · intro emsg herr
    rcases htx : txn.transaction with _ | ct
    · rcases hdet : detectInstructionType m logs <;>
        simp [from_json, hdet, htx] at herr <;>
          exact Or.inl herr.symm
    · rcases hb : ct.transaction.bind (fun t => t.message) with _ | msg2
      · rcases hdet : detectInstructionType m logs <;>
          simp [from_json, hdet, htx, hb] at herr <;>
            exact Or.inr herr.symm
      · rcases hdet : detectInstructionType m logs <;>
          simp [from_json, hdet, htx, hb] at herr
  · intro hnone
    exact detectAux_default m logs logs hnone

/-- Claim C8 witness: the amended statement at a concrete envelope-less
transaction with an unrecognizable (empty) log list. -/
theorem C8_witness :
    from_json ⟨"BUYLOG", "BUYDATA", "SELLLOG", "SELLDATA"⟩ [] (fun _ => none)
        ⟨7, none⟩ [] = Except.error "Transaction is None" ∧
    detectInstructionType ⟨"BUYLOG", "BUYDATA", "SELLLOG", "SELLDATA"⟩ [] =
      InstructionType.SwapBuy := by
  have h := C8_classification_errors_amended
    ⟨"BUYLOG", "BUYDATA", "SELLLOG", "SELLDATA"⟩ [] (fun _ => none) ⟨7, none⟩ []
  exact ⟨h.1 rfl, h.2.2.2 (by simp)⟩
